import Mathlib

/-!
Verification of the time-to-k8s benchmark harness (main Go source, the variant
with a 5000-attempt retry ceiling and a CPU sampling goroutine).

Shallow embedding conventions:
* Durations are `Nat` nanoseconds.  `time.Since` under Go's monotonic clock
  never yields a negative elapsed time, which `Nat` encodes by construction.
* The outcome of actually running an external process is external
  nondeterminism; it is supplied by an `Attempt` (one per process execution).
  `Run` consumes one `Attempt`; `RetryRun` consumes a stream `Nat → Attempt`
  (the outcome of the i-th execution of the command).
* A Go `context.Context` carrying a deadline is modelled by `Ctx`, recording
  whether the deadline has fired.  `exec.CommandContext` stores the context in
  the command; `exec.Command` stores none.  Running a command whose stored
  context has fired returns a deadline-exceeded error without consulting the
  attempt's own outcome, mirroring `cmd.Run` failing once the context is done.
* Go errors relevant to the harness are `CmdError`: a process exit error
  (`*exec.ExitError` carrying an exit code), a spawn failure (binary not
  found / permission denied), or `context.DeadlineExceeded`.
-/

/-- Go error classification for a command execution (`cmd.Run`'s error). -/
inductive CmdError where
  | exitErr : Int → CmdError
  | spawnErr : String → CmdError
  | deadlineExceeded : CmdError
deriving DecidableEq, Repr

/-- Deadline-bearing context (`context.WithTimeout`): whether it has fired. -/
structure Ctx where
  fired : Bool
deriving DecidableEq, Repr

/-- `exec.Cmd`: resolved path, argument vector (`Args[0]` is the binary name),
and the optional context stored by `exec.CommandContext`. -/
structure Cmd where
  path : String
  args : List String
  ctx : Option Ctx
deriving DecidableEq, Repr

/-- External outcome of one process execution: captured output, elapsed wall
time, and the error `cmd.Run` would return (`none` = success). -/
structure Attempt where
  stdout : String
  stderr : String
  duration : Nat
  err : Option CmdError
deriving DecidableEq, Repr

/-- `RunResult` from the source: stdout, stderr, exit code, duration, args. -/
structure RunResult where
  stdout : String
  stderr : String
  exitCode : Int
  duration : Nat
  args : List String
deriving DecidableEq, Repr

/-- `exec.Command(name, arg...)`: `Args = append([]string{name}, arg...)`,
no context. -/
def execCommand (name : String) (args : List String) : Cmd :=
  { path := name, args := name :: args, ctx := none }

/-- `exec.CommandContext(ctx, name, arg...)`: same, with the context stored. -/
def execCommandContext (c : Ctx) (name : String) (args : List String) : Cmd :=
  { path := name, args := name :: args, ctx := some c }

/-- Lines 81-85 of the source: `rr.ExitCode` is set only when the error is an
`*exec.ExitError`; any other error (spawn failure, context error) leaves the
zero value 0. -/
def exitCodeOf : Option CmdError → Int
  | some (CmdError.exitErr c) => c
  | _ => 0

/-- `Run` (source lines 69-93): run the command once, always populate the
duration, copy the exit code out of an `*exec.ExitError` and nothing else.
A command whose stored context has already fired does not execute the process
and `cmd.Run` returns the context's error. -/
def Run (a : Attempt) (cmd : Cmd) : RunResult × Option CmdError :=
  match cmd.ctx with
  | some c =>
    if c.fired then
      ({ stdout := "", stderr := "", exitCode := 0, duration := a.duration, args := cmd.args },
       some CmdError.deadlineExceeded)
    else
      ({ stdout := a.stdout, stderr := a.stderr, exitCode := exitCodeOf a.err,
         duration := a.duration, args := cmd.args }, a.err)
  | none =>
      ({ stdout := a.stdout, stderr := a.stderr, exitCode := exitCodeOf a.err,
         duration := a.duration, args := cmd.args }, a.err)

/-- The attempt ceiling of `RetryRun` (source line 104: `for attempts < 5000`). -/
def retryCeiling : Nat := 5000

/-- The loop body of `RetryRun` (source lines 104-119).  `fuel` is the number
of further iterations the `attempts < 5000` guard still allows after the
current one; each iteration rebuilds the command with `exec.Command(cmd.Path,
cmd.Args[1:]...)` — dropping any stored context — accumulates the attempt's
duration, overwrites `rr.Duration` with the accumulated total, returns on
success, and after the last allowed iteration returns the last `rr, err`. -/
def retryLoop (w : Nat → Attempt) (cmd : Cmd) : Nat → Nat → Nat → RunResult × Option CmdError
  | i, acc, 0 =>
    let p := Run (w i) (execCommand cmd.path (cmd.args.drop 1))
    ({ p.1 with duration := acc + p.1.duration }, p.2)
  | i, acc, fuel + 1 =>
    let p := Run (w i) (execCommand cmd.path (cmd.args.drop 1))
    let acc2 := acc + p.1.duration
    match p.2 with
    | none => ({ p.1 with duration := acc2 }, none)
    | some _ => retryLoop w cmd (i + 1) acc2 fuel

/-- `RetryRun` (source lines 96-122): retry until success or the ceiling. -/
def RetryRun (w : Nat → Attempt) (cmd : Cmd) : RunResult × Option CmdError :=
  retryLoop w cmd 0 0 (retryCeiling - 1)

/-- Number of process executions `RetryRun` performs on the attempt stream `w`
(the loop runs `Run` once per iteration; `fuel` as in `retryLoop`). -/
def retryCount (w : Nat → Attempt) : Nat → Nat → Nat
  | _, 0 => 1
  | i, fuel + 1 => if ((w i).err).isSome then 1 + retryCount w (i + 1) fuel else 1

/-- Number of process executions a full `RetryRun` performs. -/
def retryRunAttempts (w : Nat → Attempt) : Nat := retryCount w 0 (retryCeiling - 1)

lemma run_ctxfree (a : Attempt) (name : String) (args : List String) :
    Run a (execCommand name args) =
      ({ stdout := a.stdout, stderr := a.stderr, exitCode := exitCodeOf a.err,
         duration := a.duration, args := name :: args }, a.err) := rfl

lemma retryLoop_success (w : Nat → Attempt) (cmd : Cmd) :
    ∀ (k i acc fuel : Nat), k ≤ fuel →
      (∀ j, j < k → ((w (i + j)).err).isSome) →
      (w (i + k)).err = none →
      retryLoop w cmd i acc fuel =
        ({ stdout := (w (i + k)).stdout, stderr := (w (i + k)).stderr, exitCode := 0,
           duration := acc + ∑ j ∈ Finset.range (k + 1), (w (i + j)).duration,
           args := cmd.path :: cmd.args.drop 1 }, none) := by
  intro k
  induction k with
  | zero =>
    intro i acc fuel _ _ hs
    simp only [Nat.add_zero] at hs
    cases fuel with
    | zero =>
      simp [retryLoop, run_ctxfree, hs, exitCodeOf]
    | succ fuel =>
      simp [retryLoop, run_ctxfree, hs, exitCodeOf]
  | succ k ih =>
    intro i acc fuel hk hf hs
    have h0 : ((w i).err).isSome := by
      have := hf 0 (Nat.succ_pos k)
      simpa using this
    obtain ⟨e0, he0⟩ := Option.isSome_iff_exists.mp h0
    cases fuel with
    | zero => exact absurd hk (by omega)
    | succ fuel =>
      have step : retryLoop w cmd i acc (fuel + 1) =
          retryLoop w cmd (i + 1) (acc + (w i).duration) fuel := by
        simp [retryLoop, run_ctxfree, he0]
      rw [step]
      have hf' : ∀ j, j < k → ((w (i + 1 + j)).err).isSome := by
        intro j hj
        have := hf (j + 1) (by omega)
        have hidx : i + (j + 1) = i + 1 + j := by omega
        rwa [hidx] at this
      have hs' : (w (i + 1 + k)).err = none := by
        have hidx : i + (k + 1) = i + 1 + k := by omega
        rwa [hidx] at hs
      rw [ih (i + 1) (acc + (w i).duration) fuel (by omega) hf' hs']
      have hidx : i + 1 + k = i + (k + 1) := by omega
      have hsum : acc + (w i).duration + ∑ j ∈ Finset.range (k + 1), (w (i + 1 + j)).duration
          = acc + ∑ j ∈ Finset.range (k + 1 + 1), (w (i + j)).duration := by
        have e1 : ∑ j ∈ Finset.range (k + 1 + 1), (w (i + j)).duration
            = (∑ j ∈ Finset.range (k + 1), (w (i + (j + 1))).duration) + (w (i + 0)).duration :=
          Finset.sum_range_succ' (fun j => (w (i + j)).duration) (k + 1)
        have e2 : ∑ j ∈ Finset.range (k + 1), (w (i + (j + 1))).duration
            = ∑ j ∈ Finset.range (k + 1), (w (i + 1 + j)).duration :=
          Finset.sum_congr rfl (fun j _ => by rw [show i + (j + 1) = i + 1 + j from by omega])
        rw [e1, e2]
        simp only [Nat.add_zero]
        omega
      rw [hidx, hsum]

lemma retryLoop_exhaust (w : Nat → Attempt) (cmd : Cmd) :
    ∀ (fuel i acc : Nat), (∀ j, ((w j).err).isSome) →
      retryLoop w cmd i acc fuel =
        ({ stdout := (w (i + fuel)).stdout, stderr := (w (i + fuel)).stderr,
           exitCode := exitCodeOf ((w (i + fuel)).err),
           duration := acc + ∑ j ∈ Finset.range (fuel + 1), (w (i + j)).duration,
           args := cmd.path :: cmd.args.drop 1 }, (w (i + fuel)).err) := by
  intro fuel
  induction fuel with
  | zero =>
    intro i acc _
    simp [retryLoop, run_ctxfree]
  | succ fuel ih =>
    intro i acc hall
    obtain ⟨e0, he0⟩ := Option.isSome_iff_exists.mp (hall i)
    have step : retryLoop w cmd i acc (fuel + 1) =
        retryLoop w cmd (i + 1) (acc + (w i).duration) fuel := by
      simp [retryLoop, run_ctxfree, he0]
    rw [step, ih (i + 1) (acc + (w i).duration) hall]
    have hidx : i + 1 + fuel = i + (fuel + 1) := by omega
    have hsum : acc + (w i).duration + ∑ j ∈ Finset.range (fuel + 1), (w (i + 1 + j)).duration
        = acc + ∑ j ∈ Finset.range (fuel + 1 + 1), (w (i + j)).duration := by
      have e1 : ∑ j ∈ Finset.range (fuel + 1 + 1), (w (i + j)).duration
          = (∑ j ∈ Finset.range (fuel + 1), (w (i + (j + 1))).duration) + (w (i + 0)).duration :=
        Finset.sum_range_succ' (fun j => (w (i + j)).duration) (fuel + 1)
      have e2 : ∑ j ∈ Finset.range (fuel + 1), (w (i + (j + 1))).duration
          = ∑ j ∈ Finset.range (fuel + 1), (w (i + 1 + j)).duration :=
        Finset.sum_congr rfl (fun j _ => by rw [show i + (j + 1) = i + 1 + j from by omega])
      rw [e1, e2]
      simp only [Nat.add_zero]
      omega
    rw [hidx, hsum]

lemma retryCount_success (w : Nat → Attempt) :
    ∀ (k i fuel : Nat), k ≤ fuel →
      (∀ j, j < k → ((w (i + j)).err).isSome) →
      (w (i + k)).err = none →
      retryCount w i fuel = k + 1 := by
  intro k
  induction k with
  | zero =>
    intro i fuel _ _ hs
    simp only [Nat.add_zero] at hs
    cases fuel with
    | zero => simp [retryCount]
    | succ fuel => simp [retryCount, hs]
  | succ k ih =>
    intro i fuel hk hf hs
    have h0 : ((w i).err).isSome := by
      have := hf 0 (Nat.succ_pos k)
      simpa using this
    cases fuel with
    | zero => exact absurd hk (by omega)
    | succ fuel =>
      have hf' : ∀ j, j < k → ((w (i + 1 + j)).err).isSome := by
        intro j hj
        have := hf (j + 1) (by omega)
        have hidx : i + (j + 1) = i + 1 + j := by omega
        rwa [hidx] at this
      have hs' : (w (i + 1 + k)).err = none := by
        have hidx : i + (k + 1) = i + 1 + k := by omega
        rwa [hidx] at hs
      simp only [retryCount, h0, if_true, ih (i + 1) fuel (by omega) hf' hs']
      omega

lemma retryCount_exhaust (w : Nat → Attempt) :
    ∀ (fuel i : Nat), (∀ j, ((w j).err).isSome) →
      retryCount w i fuel = fuel + 1 := by
  intro fuel
  induction fuel with
  | zero => intro i _; simp [retryCount]
  | succ fuel ih =>
    intro i hall
    simp only [retryCount, hall i, if_true, ih (i + 1) hall]
    omega

lemma retryRun_all_fail (w : Nat → Attempt) (cmd : Cmd)
    (hall : ∀ j, ((w j).err).isSome) :
    ((RetryRun w cmd).2).isSome := by
  have h := retryLoop_exhaust w cmd (retryCeiling - 1) 0 0 hall
  simp only [RetryRun, h]
  exact hall _

/-- A concrete kubectl command for witnesses. -/
def cmdKubectl : Cmd := execCommand "kubectl" ["get", "po", "-A"]

/-- Attempt stream failing exactly once (attempt 0) then succeeding. -/
def wOnceFail : Nat → Attempt := fun i =>
  if i = 0 then { stdout := "", stderr := "refused", duration := 3, err := some (CmdError.exitErr 1) }
  else { stdout := "ok", stderr := "", duration := 4, err := none }

/-- Attempt stream that always fails with exit status 1. -/
def wAlwaysFail : Nat → Attempt := fun _ =>
  { stdout := "", stderr := "refused", duration := 1, err := some (CmdError.exitErr 1) }

/-- C2: a command that fails exactly K times and then succeeds, with K below
the attempt ceiling, makes `RetryRun` execute exactly K+1 attempts, return
success, and return a `Duration` equal to the sum of the durations of all
K+1 attempts rather than only the final one. -/
theorem RetryRun_fails_k_then_succeeds (w : Nat → Attempt) (cmd : Cmd) (K : Nat)
    (hK : K < retryCeiling)
    (hf : ∀ i, i < K → ((w i).err).isSome)
    (hs : (w K).err = none) :
    (RetryRun w cmd).2 = none ∧
    (RetryRun w cmd).1.duration = ∑ i ∈ Finset.range (K + 1), (w i).duration ∧
    retryRunAttempts w = K + 1 := by
  have hk : K ≤ retryCeiling - 1 := by
    simp only [retryCeiling] at hK ⊢
    omega
  have hf0 : ∀ j, j < K → ((w (0 + j)).err).isSome := by
    intro j hj
    simpa using hf j hj
  have hs0 : (w (0 + K)).err = none := by simpa using hs
  have h := retryLoop_success w cmd K 0 0 (retryCeiling - 1) hk hf0 hs0
  have hc := retryCount_success w K 0 (retryCeiling - 1) hk hf0 hs0
  refine ⟨?_, ?_, ?_⟩
  · simp [RetryRun, h]
  · simp [RetryRun, h]
  · simpa [retryRunAttempts] using hc

/-- C2 witness: a command failing once then succeeding takes 2 attempts and
the returned duration 7 is the sum of both attempt durations (3 and 4). -/
theorem RetryRun_fails_k_then_succeeds_witness :
    (1 < retryCeiling ∧
      ((wOnceFail 0).err).isSome = true ∧ (wOnceFail 1).err = none) ∧
    (RetryRun wOnceFail cmdKubectl).2 = none ∧
    (RetryRun wOnceFail cmdKubectl).1.duration =
      ∑ i ∈ Finset.range 2, (wOnceFail i).duration ∧
    retryRunAttempts wOnceFail = 2 := by
  refine ⟨⟨by decide, by decide, by decide⟩, ?_⟩
  exact RetryRun_fails_k_then_succeeds wOnceFail cmdKubectl 1 (by decide)
    (fun i hi => by interval_cases i <;> decide) (by decide)

/-- C3: a command that never succeeds makes `RetryRun` terminate after exactly
the 5000-attempt ceiling, returning the last outcome (with the duration
accumulated over all 5000 attempts) paired with the last observed error. -/
theorem RetryRun_never_succeeds (w : Nat → Attempt) (cmd : Cmd)
    (hall : ∀ i, ((w i).err).isSome) :
    retryRunAttempts w = retryCeiling ∧
    (RetryRun w cmd).2 = (w (retryCeiling - 1)).err ∧
    ((RetryRun w cmd).2).isSome ∧
    (RetryRun w cmd).1.duration = ∑ i ∈ Finset.range retryCeiling, (w i).duration ∧
    (RetryRun w cmd).1.stdout = (w (retryCeiling - 1)).stdout ∧
    (RetryRun w cmd).1.stderr = (w (retryCeiling - 1)).stderr := by
  have h := retryLoop_exhaust w cmd (retryCeiling - 1) 0 0 hall
  have hc := retryCount_exhaust w (retryCeiling - 1) 0 hall
  have hceil : retryCeiling - 1 + 1 = retryCeiling := by simp [retryCeiling]
  refine ⟨?_, ?_, ?_, ?_, ?_, ?_⟩
  · simpa [retryRunAttempts, hceil] using hc
  · simp [RetryRun, h]
  · exact retryRun_all_fail w cmd hall
  · simp only [RetryRun, h]
    simp [hceil]
  · simp [RetryRun, h]
  · simp [RetryRun, h]

/-- C3 witness: a constantly failing command is attempted exactly 5000 times
and the last error (exit status 1) is returned. -/
theorem RetryRun_never_succeeds_witness :
    (∀ i, ((wAlwaysFail i).err).isSome) ∧
    retryRunAttempts wAlwaysFail = retryCeiling ∧
    (RetryRun wAlwaysFail cmdKubectl).2 = (wAlwaysFail (retryCeiling - 1)).err ∧
    ((RetryRun wAlwaysFail cmdKubectl).2).isSome := by
  refine ⟨fun i => rfl, ?_⟩
  have h := RetryRun_never_succeeds wAlwaysFail cmdKubectl (fun i => rfl)
  exact ⟨h.1, h.2.1, h.2.2.1⟩

/-!
Phase sequencer (`runIteration`, source lines 128-244) and iteration
controller (`main`, source lines 246-331).

External behaviour of one test-case run is a `PhaseWorld`: one `Attempt` per
non-retrying command (version probe, setup) and one attempt stream per
retrying phase, plus the background CPU sampler's integration function
(`cstat` goroutine, lines 148-159: it writes `e.CPUTime = Busy *
float64(e.Total.Nanoseconds())` once the context is cancelled, i.e. on every
return path after `wg.Wait()`; `cpuOf` abstracts that product as a function
of the final `Total`).
-/

/-- Per-test-case external behaviour (one attempt stream per phase). -/
structure PhaseWorld where
  versionProbe : Attempt
  setupRun : Attempt
  api : Nat → Attempt
  k8sSvc : Nat → Attempt
  coreDnsSvc : Nat → Attempt
  applyApp : Nat → Attempt
  execProbe : Nat → Attempt
  dnsProbe : Nat → Attempt
  teardown : Nat → Attempt
  cpuOf : Nat → Nat

/-- `ExperimentResult` from the source (durations in `Nat` nanoseconds,
`Timestamp` as a `Nat` clock reading). -/
structure ExperimentResult where
  name : String
  args : List String
  version : String
  startup : Nat
  apiAnswering : Nat
  kubernetesSvc : Nat
  dnsSvc : Nat
  appRunning : Nat
  dnsAnswering : Nat
  total : Nat
  exitCode : Int
  error : String
  timestamp : Nat
  cpuTime : Nat
deriving DecidableEq, Repr

/-- The zero value of `ExperimentResult` (Go struct zero initialization). -/
def emptyResult : ExperimentResult :=
  { name := "", args := [], version := "", startup := 0, apiAnswering := 0,
    kubernetesSvc := 0, dnsSvc := 0, appRunning := 0, dnsAnswering := 0, total := 0,
    exitCode := 0, error := "", timestamp := 0, cpuTime := 0 }

/-- Split a character list at every occurrence of `sep`, keeping empty
fields (the semantics of Go's `strings.Split` with a one-character
separator), by structural recursion so concrete inputs reduce. -/
def splitCharsOn (sep : Char) : List Char → List (List Char)
  | [] => [[]]
  | c :: cs =>
    if c = sep then [] :: splitCharsOn sep cs
    else
      match splitCharsOn sep cs with
      | [] => [[c]]
      | g :: gs => (c :: g) :: gs

/-- `strings.Split(s, " ")` (source lines 129-130). -/
def splitSpace (s : String) : List String :=
  (splitCharsOn ' ' s.toList).map (fun l => String.mk l)

/-- First line of a command's stdout: `strings.Split(out, "\n")[0]`
(source line 166). -/
def firstLine (s : String) : String :=
  String.mk ((splitCharsOn (Char.ofNat 10) s.toList).headD [])

/-- Whether `sub` occurs in the character list (helper for
`strings.Contains`). -/
def hasSubstrAux (sub : List Char) : List Char → Bool
  | [] => sub.isEmpty
  | c :: cs => List.isPrefixOf sub (c :: cs) || hasSubstrAux sub cs

/-- `strings.Contains(s, sub)` (source lines 177-183). -/
def strContains (s sub : String) : Bool := hasSubstrAux sub.toList s.toList

/-- Tool-specific context flag selection (source lines 175-185): three
consecutive `if` statements, each overwriting `extraArgs` on a substring
match against the setup binary name. -/
def extraArgsFor (binary : String) : List String :=
  let e0 : List String := []
  let e1 := if strContains binary "kind" then ["--context", "kind-kind"] else e0
  let e2 := if strContains binary "minikube" then ["--context", "minikube"] else e1
  if strContains binary "k3d" then ["--context", "k3d-k3s-default"] else e2

/-- Rendering of the wrapped Go error `fmt.Errorf("%s failed: %w", rr, err)`
(the exact text of `%s` on a `*RunResult` is summarized by the joined
argument vector; what the proofs use is only that the wrapper inserts the
literal " failed: "). -/
def errText : CmdError → String
  | CmdError.exitErr c => "exit status " ++ toString c
  | CmdError.spawnErr m => m
  | CmdError.deadlineExceeded => "context deadline exceeded"

/-- The error string produced at each phase-failure return of
`runIteration`. -/
def wrapError (rr : RunResult) (e : CmdError) : String :=
  String.intercalate " " rr.args ++ " failed: " ++ errText e

/-- The deferred `cancel(); wg.Wait()` (lines 139-142) runs on every return
path, after which the sampler goroutine has stored the CPU metric computed
from the current `e.Total`. -/
def finishResult (w : PhaseWorld) (e : ExperimentResult) : ExperimentResult :=
  { e with cpuTime := w.cpuOf e.total }

/-- The version-probe command (source line 161). -/
def versionCmd (ctx : Ctx) (binary : String) : Cmd :=
  execCommandContext ctx binary ["version"]

/-- The setup command (source line 168). -/
def startupCmd (ctx : Ctx) (binary : String) (setup : List String) : Cmd :=
  execCommandContext ctx binary (setup.drop 1)

/-- The API-poll command (source lines 187-188). -/
def apiCmd (ctx : Ctx) (extraArgs : List String) : Cmd :=
  execCommandContext ctx "kubectl" (extraArgs ++ ["get", "po", "-A"])

/-- The kubernetes-service poll command (source line 195). -/
def k8sSvcCmd (ctx : Ctx) (extraArgs : List String) : Cmd :=
  execCommandContext ctx "kubectl" (extraArgs ++ ["get", "svc", "kubernetes"])

/-- The kube-dns service poll command (source line 203). -/
def dnsSvcCmd (ctx : Ctx) (extraArgs : List String) : Cmd :=
  execCommandContext ctx "kubectl" (extraArgs ++ ["get", "svc", "kube-dns", "-n", "kube-system"])

/-- The manifest-apply command (source line 211). -/
def applyCmd (ctx : Ctx) (extraArgs : List String) : Cmd :=
  execCommandContext ctx "kubectl" (extraArgs ++ ["apply", "-f", "manifests/netcat-svc.yaml"])

/-- The TCP-probe command (source line 219). -/
def execProbeCmd (ctx : Ctx) (extraArgs : List String) : Cmd :=
  execCommandContext ctx "kubectl"
    (extraArgs ++ ["exec", "deployment/netcat", "--", "nc", "-v", "localhost", "8080"])

/-- The DNS-probe command (source line 227). -/
def dnsProbeCmd (ctx : Ctx) (extraArgs : List String) : Cmd :=
  execCommandContext ctx "kubectl"
    (extraArgs ++ ["exec", "deployment/netcat", "--", "nslookup", "netcat.default"])

/-- The teardown command (source line 237): built with `exec.Command`, so it
carries no context. -/
def teardownCmd (cleanup : List String) : Cmd :=
  execCommand (cleanup.headD "") (cleanup.drop 1)

/-- `runIteration` (source lines 128-244): version probe and setup run once
with the deadline context; the six cluster phases poll through `RetryRun`
on context-bearing kubectl commands; teardown polls through `RetryRun` on a
context-free command (line 237).  Any failure sets `ExitCode` from the
failing outcome and returns the partially-filled result with a wrapped
error; `Total` is assigned only after the DNS phase (line 235). -/
def runIteration (w : PhaseWorld) (ctx : Ctx) (name setupCmd cleanupCmd : String)
    (now : Nat) : ExperimentResult × Option String :=
  let setup := splitSpace setupCmd
  let cleanup := splitSpace cleanupCmd
  let binary := setup.headD ""
  let e := { emptyResult with name := name, timestamp := now, args := setup }
  let p := Run w.versionProbe (versionCmd ctx binary)
  match p.2 with
  | some er => (finishResult w { e with exitCode := p.1.exitCode }, some (wrapError p.1 er))
  | none =>
  let e := { e with version := firstLine p.1.stdout }
  let p := Run w.setupRun (startupCmd ctx binary setup)
  match p.2 with
  | some er => (finishResult w { e with exitCode := p.1.exitCode }, some (wrapError p.1 er))
  | none =>
  let e := { e with startup := p.1.duration }
  let extraArgs := extraArgsFor binary
  let p := RetryRun w.api (apiCmd ctx extraArgs)
  match p.2 with
  | some er => (finishResult w { e with exitCode := p.1.exitCode }, some (wrapError p.1 er))
  | none =>
  let e := { e with apiAnswering := p.1.duration }
  let p := RetryRun w.k8sSvc (k8sSvcCmd ctx extraArgs)
  match p.2 with
  | some er => (finishResult w { e with exitCode := p.1.exitCode }, some (wrapError p.1 er))
  | none =>
  let e := { e with kubernetesSvc := p.1.duration }
  let p := RetryRun w.coreDnsSvc (dnsSvcCmd ctx extraArgs)
  match p.2 with
  | some er => (finishResult w { e with exitCode := p.1.exitCode }, some (wrapError p.1 er))
  | none =>
  let e := { e with dnsSvc := p.1.duration }
  let p := RetryRun w.applyApp (applyCmd ctx extraArgs)
  match p.2 with
  | some er => (finishResult w { e with exitCode := p.1.exitCode }, some (wrapError p.1 er))
  | none =>
  let e := { e with appRunning := p.1.duration }
  let p := RetryRun w.execProbe (execProbeCmd ctx extraArgs)
  match p.2 with
  | some er => (finishResult w { e with exitCode := p.1.exitCode }, some (wrapError p.1 er))
  | none =>
  let e := { e with appRunning := e.appRunning + p.1.duration }
  let p := RetryRun w.dnsProbe (dnsProbeCmd ctx extraArgs)
  match p.2 with
  | some er => (finishResult w { e with exitCode := p.1.exitCode }, some (wrapError p.1 er))
  | none =>
  let e := { e with dnsAnswering := p.1.duration }
  let e := { e with total := e.startup + e.apiAnswering + e.kubernetesSvc + e.dnsSvc +
    e.appRunning + e.dnsAnswering }
  let p := RetryRun w.teardown (teardownCmd cleanup)
  match p.2 with
  | some er => (finishResult w { e with exitCode := p.1.exitCode }, some (wrapError p.1 er))
  | none => (finishResult w e, none)

/-- The six phase-duration fields in source order. -/
def phaseList (e : ExperimentResult) : List Nat :=
  [e.startup, e.apiAnswering, e.kubernetesSvc, e.dnsSvc, e.appRunning, e.dnsAnswering]

lemma wrapError_ne_empty (rr : RunResult) (er : CmdError) : wrapError rr er ≠ "" := by
  intro h
  have hl : (wrapError rr er).length = 0 := by rw [h]; rfl
  rw [wrapError, String.length_append, String.length_append] at hl
  have h9 : (" failed: ").length = 9 := rfl
  omega

/-- "Every phase not yet measured is zero", stated without vacuity: for each
phase command of the sequence, if that command (as `runIteration` invokes it)
fails, the run cannot have completed that phase, so that phase's slot and
every later slot of the result's phase list still hold zero.  The drop index
per phase is the number of phase durations assigned before it in the source
(the TCP probe accumulates into the already-assigned `AppRunning`, so its
index is 5, like the DNS probe's). -/
def unmeasuredZero (w : PhaseWorld) (ctx : Ctx) (setupCmd : String)
    (e : ExperimentResult) : Prop :=
  (((Run w.versionProbe (versionCmd ctx ((splitSpace setupCmd).headD ""))).2).isSome →
    ∀ d ∈ phaseList e, d = 0) ∧
  (((Run w.setupRun
      (startupCmd ctx ((splitSpace setupCmd).headD "") (splitSpace setupCmd))).2).isSome →
    ∀ d ∈ phaseList e, d = 0) ∧
  (((RetryRun w.api (apiCmd ctx (extraArgsFor ((splitSpace setupCmd).headD "")))).2).isSome →
    ∀ d ∈ (phaseList e).drop 1, d = 0) ∧
  (((RetryRun w.k8sSvc
      (k8sSvcCmd ctx (extraArgsFor ((splitSpace setupCmd).headD "")))).2).isSome →
    ∀ d ∈ (phaseList e).drop 2, d = 0) ∧
  (((RetryRun w.coreDnsSvc
      (dnsSvcCmd ctx (extraArgsFor ((splitSpace setupCmd).headD "")))).2).isSome →
    ∀ d ∈ (phaseList e).drop 3, d = 0) ∧
  (((RetryRun w.applyApp
      (applyCmd ctx (extraArgsFor ((splitSpace setupCmd).headD "")))).2).isSome →
    ∀ d ∈ (phaseList e).drop 4, d = 0) ∧
  (((RetryRun w.execProbe
      (execProbeCmd ctx (extraArgsFor ((splitSpace setupCmd).headD "")))).2).isSome →
    ∀ d ∈ (phaseList e).drop 5, d = 0) ∧
  (((RetryRun w.dnsProbe
      (dnsProbeCmd ctx (extraArgsFor ((splitSpace setupCmd).headD "")))).2).isSome →
    ∀ d ∈ (phaseList e).drop 5, d = 0)

lemma runIteration_shape (w : PhaseWorld) (ctx : Ctx) (name setupCmd cleanupCmd : String)
    (now : Nat) :
    ∀ e err, runIteration w ctx name setupCmd cleanupCmd now = (e, err) →
      (err = none → e.total = e.startup + e.apiAnswering + e.kubernetesSvc + e.dnsSvc +
        e.appRunning + e.dnsAnswering) ∧
      (∀ m, err = some m → m ≠ "") ∧
      (e.total = 0 ∨ e.total = e.startup + e.apiAnswering + e.kubernetesSvc + e.dnsSvc +
        e.appRunning + e.dnsAnswering) ∧
      unmeasuredZero w ctx setupCmd e ∧
      ((∀ i, ((w.dnsProbe i).err).isSome) → e.total = 0) := by
  intro e err h
  simp only [runIteration] at h
  repeat' split at h
  all_goals injection h with h1 h2
  all_goals subst h1
  all_goals subst h2
  all_goals simp only [unmeasuredZero]
  all_goals refine ⟨?_, ?_, ?_, ⟨?_, ?_, ?_, ?_, ?_, ?_, ?_, ?_⟩, ?_⟩
  all_goals first
    | (intro hm; exact Option.noConfusion hm)
    | (intro m hm; injection hm with hm2; subst hm2; exact wrapError_ne_empty _ _)
    | (intro m hm; exact Option.noConfusion hm)
    | (left; simp [finishResult, emptyResult]; done)
    | (right; simp [finishResult, emptyResult]; done)
    | (intro hm; simp [phaseList, finishResult, emptyResult]; done)
    | (intro hm; simp_all; done)
    | (intro hall;
       have hx := retryRun_all_fail w.dnsProbe
         (dnsProbeCmd ctx (extraArgsFor ((splitSpace setupCmd).headD ""))) hall;
       simp_all)

/-!
Iteration controller (`main`, source lines 246-331) and the CSV result sink.
The header row (line 276) and the best-effort pre-run teardown sweep (lines
281-285, results discarded) precede the iteration loop; the embedding models
the data rows the loop appends.
-/

/-- `e.Error = err.Error()` (source line 297): performed on the result before
it is logged/recorded whenever the iteration returned an error. -/
def recordWithError (e : ExperimentResult) : Option String → ExperimentResult
  | some m => { e with error := m }
  | none => e

/-- Go's `string(i)` conversion on an integer (source line 315,
`string(e.ExitCode)`): the one-rune string of the code point when the value
is a valid rune, otherwise the replacement character U+FFFD.  This is not a
decimal rendering. -/
def goIntToString (n : Int) : String :=
  if (0 ≤ n ∧ n < 55296) ∨ (57343 < n ∧ n < 1114112) then
    String.mk [Char.ofNat n.toNat]
  else
    String.mk [Char.ofNat 65533]

/-- Zero-pad a natural below 1000 to three digits. -/
def pad3 (n : Nat) : String :=
  if n < 10 then "00" ++ toString n
  else if n < 100 then "0" ++ toString n
  else toString n

/-- `ds` (source lines 124-126): `fmt.Sprintf("%.3f", d.Seconds())` on a
nanosecond duration.  Ties at exactly half a millisecond are rounded up here;
the float formatting differs only on such ties, which no property depends
on. -/
def ds (d : Nat) : String :=
  let ms := (d + 500000) / 1000000
  toString (ms / 1000) ++ "." ++ pad3 (ms % 1000)

/-- `runtime.GOOS` (source line 311): a host constant; its value is
irrelevant to the verified properties. -/
def runtimeGOOS : String := "linux"

/-- The CSV data row written for one recorded result (source lines 308-326).
Fields: name, joined args, platform, iteration, timestamp, version,
`string(ExitCode)` (the rune conversion), error text, seven phase/CPU
duration columns, total. -/
def rowFor (name : String) (i : Nat) (e : ExperimentResult) : List String :=
  [name, String.intercalate " " e.args, runtimeGOOS, toString i, toString e.timestamp,
   e.version, goIntToString e.exitCode, e.error, ds e.startup, ds e.apiAnswering,
   ds e.kubernetesSvc, ds e.dnsSvc, ds e.appRunning, ds e.dnsAnswering, ds e.cpuTime,
   ds e.total]

/-- `TestCase` from the source: setup and teardown command lines. -/
structure TestCase where
  setup : String
  teardown : String
deriving DecidableEq, Repr

/-- `context.WithTimeout` at the start of `runIteration` (line 138): the
deadline has not fired at creation. -/
def freshCtx : Ctx := { fired := false }

/-- One `runIteration` call as made by `main`'s inner loop (line 295), with
the per-(iteration, test case) external behaviour `world`. -/
def caseResult (world : Nat → String → PhaseWorld) (now i : Nat)
    (q : String × TestCase) : ExperimentResult × Option String :=
  runIteration (world i q.1) freshCtx q.1 q.2.setup q.2.teardown now

/-- The data row `main` writes for one (test case, iteration) pair
(lines 296-297 and 308-326). -/
def caseRow (world : Nat → String → PhaseWorld) (now i : Nat)
    (q : String × TestCase) : List String :=
  rowFor q.1 i (recordWithError (caseResult world now i q).1 (caseResult world now i q).2)

/-- The inner loop of `main` over the test cases of one iteration (source
lines 294-328): returns the data rows appended and whether the program
halted (`klog.Exitf` on a dry-run failure, line 299).  Iteration 0 writes no
rows (line 304-306); iterations ≥ 1 write one row per test case whether or
not the case failed. -/
def runCases (world : Nat → String → PhaseWorld) (now i : Nat) :
    List (String × TestCase) → List (List String) × Bool
  | [] => ([], false)
  | q :: rest =>
    let r := caseResult world now i q
    if r.2.isSome ∧ i = 0 then ([], true)
    else if i = 0 then runCases world now i rest
    else
      let t := runCases world now i rest
      (caseRow world now i q :: t.1, t.2)

/-- The outer loop of `main` (source line 287: `for i := 0; i <= N; i++`)
over a list of iteration indices: stops when an iteration halted the
program. -/
def mainLoop (world : Nat → String → PhaseWorld) (now : Nat)
    (cases : List (String × TestCase)) : List Nat → List (List String) × Bool
  | [] => ([], false)
  | i :: rest =>
    let p := runCases world now i cases
    if p.2 then (p.1, true)
    else
      let q := mainLoop world now cases rest
      (p.1 ++ q.1, q.2)

/-- The whole recording loop of `main` for iteration count `n`: iterations
0 through n inclusive. -/
def mainRun (world : Nat → String → PhaseWorld) (now : Nat)
    (cases : List (String × TestCase)) (n : Nat) : List (List String) × Bool :=
  mainLoop world now cases (List.range (n + 1))

/-- A successful attempt used by the concrete witness worlds. -/
def attemptOk : Attempt := { stdout := "v1.0.0\n", stderr := "", duration := 2, err := none }

/-- An attempt failing with exit status 1, used by the witness worlds. -/
def attemptFail1 : Attempt :=
  { stdout := "", stderr := "boom", duration := 3, err := some (CmdError.exitErr 1) }

/-- Witness world: the setup command fails with exit status 1 (and the DNS
probe would never succeed either). -/
def wSetupFails : PhaseWorld :=
  { versionProbe := attemptOk, setupRun := attemptFail1,
    api := fun _ => attemptOk, k8sSvc := fun _ => attemptOk,
    coreDnsSvc := fun _ => attemptOk, applyApp := fun _ => attemptOk,
    execProbe := fun _ => attemptOk, dnsProbe := fun _ => attemptFail1,
    teardown := fun _ => attemptOk, cpuOf := fun _ => 0 }

/-- Witness world: setup succeeds but the API poll (and DNS probe) never
succeed. -/
def wApiFails : PhaseWorld :=
  { versionProbe := attemptOk, setupRun := attemptOk,
    api := fun _ => attemptFail1, k8sSvc := fun _ => attemptOk,
    coreDnsSvc := fun _ => attemptOk, applyApp := fun _ => attemptOk,
    execProbe := fun _ => attemptOk, dnsProbe := fun _ => attemptFail1,
    teardown := fun _ => attemptOk, cpuOf := fun _ => 0 }

/-- C1: when every phase of `runIteration` completes without error, the
returned result satisfies `Total = Startup + APIAnswering + KubernetesSvc +
DNSSvc + AppRunning + DNSAnswering`; every phase duration is nonnegative;
on an early abort the record as emitted (after `e.Error = err.Error()`) has
a non-empty error; and every phase not yet measured is zero, stated per
abort cause by `unmeasuredZero`: whichever phase command fails, that phase's
slot and every later slot of the result still hold zero. -/
theorem runIteration_result_invariant (w : PhaseWorld) (ctx : Ctx)
    (name setupCmd cleanupCmd : String) (now : Nat) :
    ∀ e err, runIteration w ctx name setupCmd cleanupCmd now = (e, err) →
      (err = none → e.total = e.startup + e.apiAnswering + e.kubernetesSvc + e.dnsSvc +
        e.appRunning + e.dnsAnswering) ∧
      (∀ d ∈ phaseList e, 0 ≤ d) ∧
      (∀ m, err = some m → (recordWithError e err).error ≠ "") ∧
      unmeasuredZero w ctx setupCmd e := by
  intro e err h
  have hs := runIteration_shape w ctx name setupCmd cleanupCmd now e err h
  refine ⟨hs.1, fun d _ => Nat.zero_le d, ?_, hs.2.2.2.1⟩
  intro m hm
  rw [hm]
  simpa [recordWithError] using hs.2.1 m hm

/-- C1 witness: with a setup command failing with exit status 1, the
iteration aborts with the wrapped error, the emitted record's error is
non-empty, and — since the setup command failed — all six phases are zero. -/
theorem runIteration_result_invariant_witness :
    (runIteration wSetupFails freshCtx "case" "mybin start" "mybin delete" 0).2 =
      some "mybin start failed: exit status 1" ∧
    (recordWithError (runIteration wSetupFails freshCtx "case" "mybin start" "mybin delete" 0).1
      (runIteration wSetupFails freshCtx "case" "mybin start" "mybin delete" 0).2).error ≠ "" ∧
    ((Run wSetupFails.setupRun (startupCmd freshCtx ((splitSpace "mybin start").headD "")
        (splitSpace "mybin start"))).2).isSome ∧
    (∀ d ∈ phaseList (runIteration wSetupFails freshCtx "case" "mybin start" "mybin delete" 0).1,
      d = 0) := by
  have h := runIteration_result_invariant wSetupFails freshCtx "case" "mybin start" "mybin delete" 0
    (runIteration wSetupFails freshCtx "case" "mybin start" "mybin delete" 0).1
    (runIteration wSetupFails freshCtx "case" "mybin start" "mybin delete" 0).2
    (@Prod.mk.eta _ _ (runIteration wSetupFails freshCtx "case" "mybin start" "mybin delete" 0)).symm
  have hm : (runIteration wSetupFails freshCtx "case" "mybin start" "mybin delete" 0).2 =
      some "mybin start failed: exit status 1" := by decide
  have hset : ((Run wSetupFails.setupRun (startupCmd freshCtx
      ((splitSpace "mybin start").headD "") (splitSpace "mybin start"))).2).isSome := by decide
  exact ⟨hm, h.2.2.1 _ hm, hset, h.2.2.2.2.1 hset⟩

/-- C10: `Total` is assigned exactly once, after the DNS phase, so every
`runIteration` result has `Total = 0` or `Total` equal to the sum of the six
phase durations; in particular whenever the DNS-resolution phase cannot
succeed (so the run aborts at or before it), `Total` stays 0 even though
earlier phase durations may be positive. -/
theorem runIteration_total_zero_or_sum (w : PhaseWorld) (ctx : Ctx)
    (name setupCmd cleanupCmd : String) (now : Nat) :
    ∀ e err, runIteration w ctx name setupCmd cleanupCmd now = (e, err) →
      (e.total = 0 ∨ e.total = e.startup + e.apiAnswering + e.kubernetesSvc + e.dnsSvc +
        e.appRunning + e.dnsAnswering) ∧
      ((∀ i, ((w.dnsProbe i).err).isSome) → e.total = 0) := by
  intro e err h
  have hs := runIteration_shape w ctx name setupCmd cleanupCmd now e err h
  exact ⟨hs.2.2.1, hs.2.2.2.2⟩

/-- C10 witness: with a successful setup but an API poll that never answers
(and a DNS probe that never would), the aborted run's `Total` is 0. -/
theorem runIteration_total_zero_or_sum_witness :
    (∀ i, ((wApiFails.dnsProbe i).err).isSome) ∧
    (runIteration wApiFails freshCtx "case" "mybin start" "mybin delete" 0).1.total = 0 := by
  refine ⟨fun i => rfl, ?_⟩
  have h := runIteration_total_zero_or_sum wApiFails freshCtx "case" "mybin start" "mybin delete" 0
    (runIteration wApiFails freshCtx "case" "mybin start" "mybin delete" 0).1
    (runIteration wApiFails freshCtx "case" "mybin start" "mybin delete" 0).2
    (@Prod.mk.eta _ _ (runIteration wApiFails freshCtx "case" "mybin start" "mybin delete" 0)).symm
  exact h.2 (fun i => rfl)

lemma runCases_zero_rows (world : Nat → String → PhaseWorld) (now : Nat) :
    ∀ cs, (runCases world now 0 cs).1 = [] := by
  intro cs
  induction cs with
  | nil => rfl
  | cons q rest ih =>
    simp only [runCases]
    split
    · rfl
    · simpa using ih

lemma runCases_zero_fail (world : Nat → String → PhaseWorld) (now : Nat) :
    ∀ cs, (∃ q ∈ cs, ((caseResult world now 0 q).2).isSome) →
      runCases world now 0 cs = ([], true) := by
  intro cs
  induction cs with
  | nil =>
    rintro ⟨q, hq, _⟩
    exact absurd hq (List.not_mem_nil q)
  | cons q rest ih =>
    rintro ⟨p, hp, hps⟩
    by_cases hq : ((caseResult world now 0 q).2).isSome
    · simp [runCases, hq]
    · have hpr : p ∈ rest := by
        rcases List.mem_cons.mp hp with h | h
        · subst h; exact absurd hps hq
        · exact h
      have hr := ih ⟨p, hpr, hps⟩
      simp [runCases, hq, hr]

lemma runCases_zero_ok (world : Nat → String → PhaseWorld) (now : Nat) :
    ∀ cs, (∀ q ∈ cs, (caseResult world now 0 q).2 = none) →
      runCases world now 0 cs = ([], false) := by
  intro cs
  induction cs with
  | nil => intro _; rfl
  | cons q rest ih =>
    intro hall
    have hq : (caseResult world now 0 q).2 = none := hall q (List.mem_cons_self q rest)
    have hr := ih (fun p hp => hall p (List.mem_cons_of_mem q hp))
    simp [runCases, hq, hr]

lemma runCases_rec (world : Nat → String → PhaseWorld) (now i : Nat) (hi : 1 ≤ i) :
    ∀ cs, runCases world now i cs = (cs.map (caseRow world now i), false) := by
  intro cs
  induction cs with
  | nil => rfl
  | cons q rest ih =>
    have hne : ¬ i = 0 := by omega
    simp [runCases, hne, ih]

lemma mainLoop_no_halt (world : Nat → String → PhaseWorld) (now : Nat)
    (cs : List (String × TestCase)) :
    ∀ is, (∀ i ∈ is, (runCases world now i cs).2 = false) →
      (mainLoop world now cs is).2 = false ∧
      (mainLoop world now cs is).1.length =
        (is.map (fun i => (runCases world now i cs).1.length)).sum := by
  intro is
  induction is with
  | nil => intro _; exact ⟨rfl, rfl⟩
  | cons i rest ih =>
    intro hall
    have hi : (runCases world now i cs).2 = false := hall i (List.mem_cons_self i rest)
    have hr := ih (fun j hj => hall j (List.mem_cons_of_mem i hj))
    simp [mainLoop, hi, hr.1, hr.2]

/-- C5: the controller runs iterations 0 through N inclusive; iteration 0
(the dry run) emits no data row; if any test case fails in iteration 0 the
program halts with no data row written at all; and when the dry run passes,
the program never halts and the sink receives exactly one row per test case
per recording iteration (N × number of cases in total). -/
theorem iteration_controller_dry_run (world : Nat → String → PhaseWorld) (now : Nat)
    (cs : List (String × TestCase)) (n : Nat) :
    (runCases world now 0 cs).1 = [] ∧
    ((∃ q ∈ cs, ((caseResult world now 0 q).2).isSome) →
      mainRun world now cs n = ([], true)) ∧
    ((∀ q ∈ cs, (caseResult world now 0 q).2 = none) →
      (mainRun world now cs n).2 = false ∧
      (mainRun world now cs n).1.length = cs.length * n) := by
  refine ⟨runCases_zero_rows world now cs, ?_, ?_⟩
  · intro hex
    have h0 := runCases_zero_fail world now cs hex
    rw [mainRun, List.range_succ_eq_map]
    simp [mainLoop, h0]
  · intro hok
    have hnh : ∀ i ∈ List.range (n + 1), (runCases world now i cs).2 = false := by
      intro i _
      cases i with
      | zero => rw [runCases_zero_ok world now cs hok]
      | succ m => rw [runCases_rec world now (m + 1) (by omega) cs]
    have hml := mainLoop_no_halt world now cs (List.range (n + 1)) hnh
    have hsum : ∀ m, ((List.range (m + 1)).map
        (fun i => (runCases world now i cs).1.length)).sum = cs.length * m := by
      intro m
      induction m with
      | zero =>
        rw [show List.range 1 = [0] from rfl]
        simp [runCases_zero_rows world now cs]
      | succ m ihm =>
        rw [List.range_succ, List.map_append, List.sum_append, ihm]
        simp only [List.map_cons, List.map_nil, List.sum_cons, List.sum_nil]
        rw [runCases_rec world now (m + 1) (by omega) cs]
        simp only [List.length_map]
        ring
    exact ⟨hml.1, by rw [mainRun, hml.2, hsum]⟩

/-- Witness world in which every command succeeds. -/
def wAllOk : PhaseWorld :=
  { versionProbe := attemptOk, setupRun := attemptOk,
    api := fun _ => attemptOk, k8sSvc := fun _ => attemptOk,
    coreDnsSvc := fun _ => attemptOk, applyApp := fun _ => attemptOk,
    execProbe := fun _ => attemptOk, dnsProbe := fun _ => attemptOk,
    teardown := fun _ => attemptOk, cpuOf := fun _ => 0 }

/-- C5 witness: with one test case whose setup fails, the dry run fails and
the whole run (N = 3) halts with no data rows; with the same test case
always succeeding, the run never halts and emits exactly 1 × 3 rows. -/
theorem iteration_controller_dry_run_witness :
    (∃ q ∈ [("a", TestCase.mk "mybin start" "mybin delete")],
      ((caseResult (fun _ _ => wSetupFails) 0 0 q).2).isSome) ∧
    mainRun (fun _ _ => wSetupFails) 0 [("a", TestCase.mk "mybin start" "mybin delete")] 3 =
      ([], true) ∧
    (∀ q ∈ [("a", TestCase.mk "mybin start" "mybin delete")],
      (caseResult (fun _ _ => wAllOk) 0 0 q).2 = none) ∧
    (mainRun (fun _ _ => wAllOk) 0 [("a", TestCase.mk "mybin start" "mybin delete")] 3).2 =
      false ∧
    (mainRun (fun _ _ => wAllOk) 0 [("a", TestCase.mk "mybin start" "mybin delete")] 3).1.length =
      [("a", TestCase.mk "mybin start" "mybin delete")].length * 3 := by
  have hex : ∃ q ∈ [("a", TestCase.mk "mybin start" "mybin delete")],
      ((caseResult (fun _ _ => wSetupFails) 0 0 q).2).isSome :=
    ⟨("a", TestCase.mk "mybin start" "mybin delete"), by decide, by decide⟩
  have hok : ∀ q ∈ [("a", TestCase.mk "mybin start" "mybin delete")],
      (caseResult (fun _ _ => wAllOk) 0 0 q).2 = none := by decide
  have h3 := (iteration_controller_dry_run (fun _ _ => wAllOk) 0
    [("a", TestCase.mk "mybin start" "mybin delete")] 3).2.2 hok
  exact ⟨hex,
    (iteration_controller_dry_run (fun _ _ => wSetupFails) 0
      [("a", TestCase.mk "mybin start" "mybin delete")] 3).2.1 hex,
    hok, h3.1, h3.2⟩

/-- C6: in a recording iteration (index ≥ 1) the controller never halts,
emits exactly one row per test case in order (so a failing case does not
block later cases or iterations), a failing case's emitted record has
non-empty error text, and the phases never reached are zero, stated per
abort cause by `unmeasuredZero` for every test case of the iteration. -/
theorem recording_iteration_rows (world : Nat → String → PhaseWorld) (now i : Nat)
    (hi : 1 ≤ i) (cs : List (String × TestCase)) :
    (runCases world now i cs).2 = false ∧
    (runCases world now i cs).1 = cs.map (caseRow world now i) ∧
    (∀ q ∈ cs, ∀ m, (caseResult world now i q).2 = some m →
      (recordWithError (caseResult world now i q).1 (caseResult world now i q).2).error ≠ "") ∧
    (∀ q ∈ cs, unmeasuredZero (world i q.1) freshCtx q.2.setup (caseResult world now i q).1) := by
  have hr := runCases_rec world now i hi cs
  refine ⟨by rw [hr], by rw [hr], ?_, ?_⟩
  · intro q _ m hm
    have hs := runIteration_shape (world i q.1) freshCtx q.1 q.2.setup q.2.teardown now
      (caseResult world now i q).1 (caseResult world now i q).2
      (@Prod.mk.eta _ _ (caseResult world now i q)).symm
    rw [hm]
    simpa [recordWithError] using hs.2.1 m hm
  · intro q _
    have hs := runIteration_shape (world i q.1) freshCtx q.1 q.2.setup q.2.teardown now
      (caseResult world now i q).1 (caseResult world now i q).2
      (@Prod.mk.eta _ _ (caseResult world now i q)).symm
    exact hs.2.2.2.1

/-- C6 witness: one failing test case at recording iteration 1 still yields
no halt and exactly its one row, the recorded error text is non-empty, and —
the setup command having failed — all six phases of its record are zero. -/
theorem recording_iteration_rows_witness :
    (1 ≤ 1 ∧
      (caseResult (fun _ _ => wSetupFails) 0 1 ("a", TestCase.mk "mybin start" "mybin delete")).2 =
        some "mybin start failed: exit status 1") ∧
    (runCases (fun _ _ => wSetupFails) 0 1 [("a", TestCase.mk "mybin start" "mybin delete")]).2 =
      false ∧
    (runCases (fun _ _ => wSetupFails) 0 1 [("a", TestCase.mk "mybin start" "mybin delete")]).1 =
      [("a", TestCase.mk "mybin start" "mybin delete")].map
        (caseRow (fun _ _ => wSetupFails) 0 1) ∧
    (recordWithError
      (caseResult (fun _ _ => wSetupFails) 0 1 ("a", TestCase.mk "mybin start" "mybin delete")).1
      (caseResult (fun _ _ => wSetupFails) 0 1
        ("a", TestCase.mk "mybin start" "mybin delete")).2).error ≠ "" ∧
    ((Run wSetupFails.setupRun (startupCmd freshCtx ((splitSpace "mybin start").headD "")
        (splitSpace "mybin start"))).2).isSome ∧
    (∀ d ∈ phaseList (caseResult (fun _ _ => wSetupFails) 0 1
        ("a", TestCase.mk "mybin start" "mybin delete")).1, d = 0) := by
  have h := recording_iteration_rows (fun _ _ => wSetupFails) 0 1 (by omega)
    [("a", TestCase.mk "mybin start" "mybin delete")]
  have hm : (caseResult (fun _ _ => wSetupFails) 0 1
      ("a", TestCase.mk "mybin start" "mybin delete")).2 =
      some "mybin start failed: exit status 1" := by decide
  have hset : ((Run wSetupFails.setupRun (startupCmd freshCtx
      ((splitSpace "mybin start").headD "") (splitSpace "mybin start"))).2).isSome := by decide
  have hu := h.2.2.2 ("a", TestCase.mk "mybin start" "mybin delete") (by decide)
  refine ⟨⟨by omega, hm⟩, h.1, h.2.1, ?_, hset, hu.2.1 hset⟩
  exact h.2.2.1 ("a", TestCase.mk "mybin start" "mybin delete") (by decide) _ hm

/-- C7 counterexample: a setup binary whose name contains both "kind" and
"k3d" receives the k3d context arguments, not the kind ones, because the
later substring check overwrites the earlier selection. -/
theorem extraArgs_substring_cex :
    strContains "kind-k3d" "kind" = true ∧
    extraArgsFor "kind-k3d" ≠ ["--context", "kind-kind"] ∧
    extraArgsFor "kind-k3d" = ["--context", "k3d-k3s-default"] := by
  refine ⟨by decide, by decide, by decide⟩

/-- C7 amended: the substring checks run in order kind, minikube, k3d with
later matches overwriting earlier ones, so the selected flag set is always
one of four fixed values (hence every kubectl invocation carries at most one
tool's context arguments), and a binary matching exactly one known tool gets
that tool's arguments. -/
theorem extraArgs_selection (b : String) :
    (extraArgsFor b = [] ∨ extraArgsFor b = ["--context", "kind-kind"] ∨
      extraArgsFor b = ["--context", "minikube"] ∨
      extraArgsFor b = ["--context", "k3d-k3s-default"]) ∧
    (strContains b "k3d" = true → extraArgsFor b = ["--context", "k3d-k3s-default"]) ∧
    (strContains b "k3d" = false → strContains b "minikube" = true →
      extraArgsFor b = ["--context", "minikube"]) ∧
    (strContains b "k3d" = false → strContains b "minikube" = false →
      strContains b "kind" = true → extraArgsFor b = ["--context", "kind-kind"]) ∧
    (strContains b "kind" = false → strContains b "minikube" = false →
      strContains b "k3d" = false → extraArgsFor b = []) := by
  constructor
  · cases hk : strContains b "kind" <;> cases hm : strContains b "minikube" <;>
      cases h3 : strContains b "k3d" <;> simp [extraArgsFor, hk, hm, h3]
  refine ⟨?_, ?_, ?_, ?_⟩
  · intro h3; simp [extraArgsFor, h3]
  · intro h3 hm; simp [extraArgsFor, h3, hm]
  · intro h3 hm hk; simp [extraArgsFor, h3, hm, hk]
  · intro hk hm h3; simp [extraArgsFor, h3, hm, hk]

/-- C7 amended witness: "minikube" matches only the minikube check and gets
exactly the minikube context arguments. -/
theorem extraArgs_selection_witness :
    strContains "minikube" "k3d" = false ∧ strContains "minikube" "minikube" = true ∧
    extraArgsFor "minikube" = ["--context", "minikube"] :=
  ⟨by decide, by decide, (extraArgs_selection "minikube").2.2.1 (by decide) (by decide)⟩

/-- C8: the result record preserves the failing command's exit code 1, but
the CSV exitcode column receives Go's `string(int)` conversion of it — the
one-rune string U+0001 — rather than the decimal text "1". -/
theorem exit_code_column_rune :
    (caseResult (fun _ _ => wSetupFails) 0 1
      ("a", TestCase.mk "mybin start" "mybin delete")).1.exitCode = 1 ∧
    caseRow (fun _ _ => wSetupFails) 0 1 ("a", TestCase.mk "mybin start" "mybin delete") =
      ["a", "mybin start", "linux", "1", "0", "v1.0.0", String.mk [Char.ofNat 1],
       "mybin start failed: exit status 1", "0.000", "0.000", "0.000", "0.000",
       "0.000", "0.000", "0.000", "0.000"] ∧
    String.mk [Char.ofNat 1] ≠ "1" := by
  refine ⟨by decide, by decide, by decide⟩

lemma run_exitCode_zero (a : Attempt) (cmd : Cmd) (h : exitCodeOf a.err = 0) :
    (Run a cmd).1.exitCode = 0 := by
  obtain ⟨p, ar, cx⟩ := cmd
  cases cx with
  | none => simpa [Run] using h
  | some c => by_cases hf : c.fired <;> simp [Run, hf, h]

/-- C9: a command failing for a reason other than a process exit error (for
example a spawn failure: binary not found or permission denied) yields a
`RunResult` whose `ExitCode` is 0 — the same value a successful run carries,
so the exit-code field alone cannot distinguish the two. -/
theorem run_spawn_failure_exit_code (cmd : Cmd) (a b : Attempt) (m : String)
    (ha : a.err = some (CmdError.spawnErr m)) (hb : b.err = none) :
    (Run a cmd).1.exitCode = 0 ∧ (Run a cmd).1.exitCode = (Run b cmd).1.exitCode := by
  have hA : (Run a cmd).1.exitCode = 0 :=
    run_exitCode_zero a cmd (by rw [ha]; rfl)
  have hB : (Run b cmd).1.exitCode = 0 :=
    run_exitCode_zero b cmd (by rw [hb]; rfl)
  exact ⟨hA, by rw [hA, hB]⟩

/-- A spawn-failure attempt (binary not found). -/
def attemptSpawn : Attempt :=
  { stdout := "", stderr := "", duration := 1,
    err := some (CmdError.spawnErr "executable file not found in PATH") }

/-- C9 witness: a concrete spawn failure gets exit code 0, equal to a
successful run's exit code. -/
theorem run_spawn_failure_exit_code_witness :
    attemptSpawn.err = some (CmdError.spawnErr "executable file not found in PATH") ∧
    attemptOk.err = none ∧
    (Run attemptSpawn cmdKubectl).1.exitCode = 0 ∧
    (Run attemptSpawn cmdKubectl).1.exitCode = (Run attemptOk cmdKubectl).1.exitCode := by
  have h := run_spawn_failure_exit_code cmdKubectl attemptSpawn attemptOk
    "executable file not found in PATH" rfl rfl
  exact ⟨rfl, rfl, h.1, h.2⟩

/-- A deadline context that has already fired. -/
def firedCtx : Ctx := { fired := true }

/-- A context-bearing kubectl poll command whose deadline has fired. -/
def kubectlPollCtx : Cmd := execCommandContext firedCtx "kubectl" ["get", "po", "-A"]

/-- C4: once the per-run deadline has fired, running the context-bearing
command itself does observe the cancellation (deadline-exceeded), but
`RetryRun` rebuilds every attempt with `exec.Command`, dropping the stored
context, so the retry loop never observes cancellation: against an
always-failing command it still performs all 5000 attempts and returns the
command's own error, not a deadline-exceeded failure. -/
theorem retryRun_ignores_fired_deadline :
    (Run (wAlwaysFail 0) kubectlPollCtx).2 = some CmdError.deadlineExceeded ∧
    (RetryRun wAlwaysFail kubectlPollCtx).2 = some (CmdError.exitErr 1) ∧
    (RetryRun wAlwaysFail kubectlPollCtx).2 ≠ some CmdError.deadlineExceeded ∧
    retryRunAttempts wAlwaysFail = retryCeiling := by
  have h := retryLoop_exhaust wAlwaysFail kubectlPollCtx (retryCeiling - 1) 0 0 (fun j => rfl)
  have hc := retryCount_exhaust wAlwaysFail (retryCeiling - 1) 0 (fun j => rfl)
  have h2 : (RetryRun wAlwaysFail kubectlPollCtx).2 = some (CmdError.exitErr 1) := by
    simp only [RetryRun]
    rw [h]
    rfl
  refine ⟨rfl, h2, ?_, ?_⟩
  · rw [h2]; decide
  · simp only [retryRunAttempts]
    rw [hc]
    rfl
